import Mathlib

/-!
Verification development for the voice-relay backend
(`src/backend/main.py`, `src/backend/realtime_api.py`).

The backend relays audio between a websocket client and a streaming
upstream AI session.  `GeminiLiveSession` owns the upstream connection and
demultiplexes server events into a transcript queue and an audio queue;
`VoiceChatSession` pumps those queues into client events; the websocket
endpoint dispatches inbound client messages.

This file gives a shallow embedding of the parts of that code that the
verified properties are about: the per-event enqueue logic of
`_run_session`, the connect / send_audio / close state transitions of
`GeminiLiveSession`, the audio pump (`get_audio_chunks` + `_handle_audio`),
a sequential model of the websocket endpoint's dispatch loop, and a
small-step interleaving machine for the `session.reset` window.
-/

namespace VoiceBackend

/-! ## Python string whitespace and `str.strip()` (ASCII range)

`_run_session` filters transcript fragments with
`if text and text.strip():` and then enqueues `text.strip()`.
`pyIsSpace` models Python's default strip set on the ASCII range
(space, tab, newline, carriage return, vertical tab, form feed). -/

def pyIsSpace (c : Char) : Bool :=
  c = ' ' || c = '\t' || c = '\n' || c = '\r' || c = '\x0b' || c = '\x0c'

/-- The character list of `str.strip()`: drop whitespace from the front,
then from the back. -/
def stripChars (l : List Char) : List Char :=
  ((l.dropWhile pyIsSpace).reverse.dropWhile pyIsSpace).reverse

/-- Model of Python `str.strip()` (no argument form), on the ASCII
whitespace range. -/
def pyStrip (s : String) : String :=
  ⟨stripChars s.data⟩

/-! ## `_run_session`: per-event demultiplexing (realtime_api.py 71-100)

One upstream server event carries an optional input-transcription text, an
optional output-transcription text, a list of model-turn parts (each with
optional inline data, modelled by its payload when present), and a
turn-complete flag.  A transcription object whose `.text` is `None` is
collapsed into the absent case (the code skips it either way, by the
truthiness test `if text and text.strip()`). -/

inductive Speaker
  | user
  | assistant
  deriving DecidableEq, Repr

structure TranscriptItem where
  sender : Speaker
  text : String
  deriving DecidableEq, Repr

structure ServerContent where
  input_transcription : Option String
  output_transcription : Option String
  modelTurnParts : List (Option String)
  turn_complete : Bool
  deriving DecidableEq, Repr

/-- The transcript-queue puts performed by `_run_session` for one server
event: a fragment is enqueued (stripped) only when it is non-empty and not
whitespace-only (`if text and text.strip():` in realtime_api.py 77 / 86). -/
def transcriptPuts (c : ServerContent) : List TranscriptItem :=
  (match c.input_transcription with
    | some t =>
        if t ≠ "" && pyStrip t ≠ "" then [⟨Speaker.user, pyStrip t⟩] else []
    | none => []) ++
  (match c.output_transcription with
    | some t =>
        if t ≠ "" && pyStrip t ≠ "" then [⟨Speaker.assistant, pyStrip t⟩] else []
    | none => [])

/-- The audio-queue puts performed by `_run_session` for one server event:
each part with non-empty inline data (`if part.inline_data and
part.inline_data.data`, realtime_api.py 95) is enqueued, and a `None`
sentinel is enqueued when `turn_complete` is set (realtime_api.py 99-100). -/
def audioPuts (c : ServerContent) : List (Option String) :=
  (c.modelTurnParts.filterMap
    (fun p => match p with
      | some d => if d ≠ "" then some (some d) else none
      | none => none)) ++
  (if c.turn_complete then [Option.none] else [])

/-! ## `GeminiLiveSession` lifecycle state (realtime_api.py 18-29, 112-131, 170-178)

State components: `_is_running`, the `_session_task` background task (with
its asyncio status), the `session` connection handle (set by `_run_session`
once the connection context is entered, cleared by its `finally` block),
and the `_session_ready` event.  `_run_session` catches both
`asyncio.CancelledError` and `Exception`, so a task that has started always
finishes normally; a task cancelled before it ever ran ends in the
cancelled state, which is why `close()` guards its `await` with
`except asyncio.CancelledError: pass`. -/

inductive TaskStatus
  | notStarted
  | running
  | finished
  | cancelled
  deriving DecidableEq, Repr

inductive AsyncErr
  | cancelledErr
  | timeoutErr
  deriving DecidableEq, Repr

structure GeminiState where
  isRunning : Bool
  task : Option TaskStatus
  session : Option Unit
  sessionReady : Bool
  deriving DecidableEq, Repr

/-- The constructor state of `GeminiLiveSession.__init__`
(realtime_api.py 18-29): not running, no task, no connection handle. -/
def initGemini : GeminiState :=
  { isRunning := false, task := none, session := none, sessionReady := false }

/-- `connect()` (realtime_api.py 112-117): set `_is_running = True`, create
the `_run_session` task, then `await asyncio.wait_for(self._session_ready.wait(),
timeout=30.0)`.  `handshakeSecs` is the time the upstream handshake takes;
if it exceeds 30 the `wait_for` raises a timeout error.  Note that on the
timeout path nothing cancels `_session_task`. -/
def connect (s : GeminiState) (handshakeSecs : Nat) :
    Except AsyncErr Unit × GeminiState :=
  let s1 := { s with isRunning := true, task := some TaskStatus.running }
  if handshakeSecs ≤ 30 then
    (Except.ok (), { s1 with session := some (), sessionReady := true })
  else
    (Except.error AsyncErr.timeoutErr, s1)

/-- `send_audio` (realtime_api.py 119-131): forwards the block only when
`self.session and self._is_running`; otherwise the call falls through the
guard and does nothing (silent no-op, nothing can raise on that path).
The base64 decode and Blob wrapping happen under the guard; the forwarded
payload is represented here by its base64 text. -/
inductive SendAudioResult
  | dropped
  | forwarded (payloadB64 : String)
  deriving DecidableEq, Repr

def send_audio (s : GeminiState) (audioBase64 : String) : SendAudioResult :=
  if s.session.isSome && s.isRunning then
    SendAudioResult.forwarded audioBase64
  else
    SendAudioResult.dropped

/-- `await task` re-raises the task's outcome: awaiting a cancelled task
raises `CancelledError`; `_run_session` swallows cancellation and
exceptions, so a task that ran to its end finished normally. -/
def awaitTask : TaskStatus → Option AsyncErr
  | TaskStatus.cancelled => some AsyncErr.cancelledErr
  | _ => none

/-- The `except asyncio.CancelledError: pass` block of `close()`
(realtime_api.py 176-178). -/
def catchCancelled : Option AsyncErr → Option AsyncErr
  | some AsyncErr.cancelledErr => none
  | e => e

/-- `close()` (realtime_api.py 170-178): set `_is_running = False`; if a
session task exists, cancel it and await it, swallowing `CancelledError`.
A running `_run_session` catches the cancellation and its `finally` block
clears `self.session` and the ready event; a task that never started ends
cancelled without running its `finally`.  Returns the final state and the
error escaping `close`, if any. -/
def close (s : GeminiState) : GeminiState × Option AsyncErr :=
  let s1 := { s with isRunning := false }
  match s1.task with
  | none => (s1, none)
  | some TaskStatus.notStarted =>
      ({ s1 with task := some TaskStatus.cancelled },
       catchCancelled (awaitTask TaskStatus.cancelled))
  | some TaskStatus.running =>
      ({ s1 with task := some TaskStatus.finished, session := none,
                 sessionReady := false },
       catchCancelled (awaitTask TaskStatus.finished))
  | some TaskStatus.finished =>
      (s1, catchCancelled (awaitTask TaskStatus.finished))
  | some TaskStatus.cancelled =>
      (s1, catchCancelled (awaitTask TaskStatus.cancelled))

/-! ## `VoiceChatSession` (main.py 40-61) -/

structure VCState where
  is_running : Bool
  gemini : GeminiState
  deriving DecidableEq, Repr

/-- `VoiceChatSession.stop` (main.py 54-57): clear `is_running`, then close
the upstream session. -/
def vcStop (v : VCState) : VCState :=
  { is_running := false, gemini := (close v.gemini).1 }

/-- `VoiceChatSession.process_audio` (main.py 59-61): straight delegation
to `GeminiLiveSession.send_audio`. -/
def vcProcessAudio (v : VCState) (audioBase64 : String) : SendAudioResult :=
  send_audio v.gemini audioBase64

/-! ## The audio pump: `get_audio_chunks` + `_handle_audio`

`get_audio_chunks` (realtime_api.py 133-151) polls the audio queue with a
0.1s timeout while `_is_running`, invokes the callback once per chunk, and
returns when the `None` sentinel is dequeued.  `_handle_audio`
(main.py 86-98) calls it in a loop while `is_running`, and sends one
`audio.done` client event after **every** return of `get_audio_chunks` —
including a return caused by the running flag going false.

Time is discretised by queue polls: `budget` is the number of polls that
still observe the running flags as true; when it reaches zero the next
flag check sees false.  A poll on an empty queue is a timeout
(`except asyncio.TimeoutError: continue`). -/

inductive PollReason
  | sentinel
  | flagExit
  deriving DecidableEq, Repr

structure ChunkCall (α : Type) where
  chunks : List α
  consumed : List (Option α)
  rest : List (Option α)
  budget : Nat
  reason : PollReason
  deriving DecidableEq, Repr

/-- One call of `get_audio_chunks` on queue contents `q` with `budget`
flag-true polls remaining: returns the chunks passed to the callback (in
order), the queue items dequeued, the remaining queue, the remaining
budget, and why the call returned (`sentinel` dequeued, or the running
flag observed false). -/
def get_audio_chunks : (q : List (Option α)) → (budget : Nat) → ChunkCall α
  | q, 0 => ⟨[], [], q, 0, PollReason.flagExit⟩
  | [], b + 1 => get_audio_chunks [] b
  | none :: rest, b + 1 => ⟨[], [none], rest, b, PollReason.sentinel⟩
  | some a :: rest, b + 1 =>
      let r := get_audio_chunks rest b
      ⟨a :: r.chunks, some a :: r.consumed, r.rest, r.budget, r.reason⟩

/-- Client events produced by the audio pump. -/
inductive AudioEv (α : Type)
  | delta (a : α)
  | done
  deriving DecidableEq, Repr

structure PumpRun (α : Type) where
  events : List (AudioEv α)
  consumed : List (Option α)
  endedInside : Bool
  deriving DecidableEq, Repr

/-- `_handle_audio` (main.py 86-98), fuel-indexed for structural recursion.
The `while self.is_running` check exits when the budget is exhausted; each
completed `get_audio_chunks` call is followed by one `audio.done` send
(main.py 91-94), including when the call returned because the flags went
false (`endedInside = true` marks that trailing send). -/
def handle_audio_fuel : (fuel : Nat) → List (Option α) → Nat → PumpRun α
  | 0, _, _ => ⟨[], [], false⟩
  | _ + 1, _, 0 => ⟨[], [], false⟩
  | fuel + 1, q, b + 1 =>
      match get_audio_chunks q (b + 1) with
      | ⟨cs, con, rest, b', PollReason.sentinel⟩ =>
          let r2 := handle_audio_fuel fuel rest b'
          ⟨cs.map AudioEv.delta ++ AudioEv.done :: r2.events,
           con ++ r2.consumed, r2.endedInside⟩
      | ⟨cs, con, _, _, PollReason.flagExit⟩ =>
          ⟨cs.map AudioEv.delta ++ [AudioEv.done], con, true⟩

/-- The audio pump run on queue contents `q` with `budget` flag-true
polls.  Since every `get_audio_chunks` call consumes at least one unit of
budget before returning a sentinel, `budget` itself is enough fuel. -/
def handle_audio (q : List (Option α)) (budget : Nat) : PumpRun α :=
  handle_audio_fuel budget q budget

/-- Number of `audio.done` events in a pump output. -/
def doneCount (l : List (AudioEv α)) : Nat :=
  l.countP (fun e => match e with | AudioEv.done => true | _ => false)

/-- Number of turn-complete sentinels in a list of queue items. -/
def sentinelCount (l : List (Option α)) : Nat :=
  l.countP (fun x => x.isNone)

/-- Queue contents of a sequence of complete turns: each turn's chunks
followed by its sentinel, as `_run_session` enqueues them. -/
def encodeTurns (turns : List (List α)) : List (Option α) :=
  (turns.map (fun t => t.map some ++ [none])).flatten

/-- The client events of a sequence of complete turns: each turn's deltas
in order, then one `audio.done`. -/
def turnEvents (turns : List (List α)) : List (AudioEv α) :=
  (turns.map (fun t => t.map AudioEv.delta ++ [AudioEv.done])).flatten

/-! ## The websocket endpoint dispatch loop (main.py 108-170)

`voice_chat_endpoint` accepts the socket, checks the API key, starts
session 0, sends `session.ready`, spawns the response-processing task, and
then dispatches inbound messages one at a time:
`input_audio_buffer.append` forwards a non-empty `delta`; `session.reset`
stops the current session, builds and starts a fresh one, cancels the old
response task, spawns a new one, and sends `session.reset.done`;
a `json.JSONDecodeError` and any unmatched `type` are skipped.  Any other
exception (in particular a failed `start()` during reset) sends an `error`
event and falls into the `finally`, which stops the current session.

Sessions are numbered in creation order; `connectOk k` says whether the
`k`-th session's `connect()` succeeds. -/

inductive CMsg
  | append (delta : Option String)
  | reset
  | other (ty : String)
  | malformed
  deriving DecidableEq, Repr

inductive Act
  | sendError
  | sendReady
  | sendResetDone
  | startSession (k : Nat)
  | stopSession (k : Nat)
  | cancelPumps (k : Nat)
  | spawnPumps (k : Nat)
  | forwardAudio (k : Nat) (delta : String)
  deriving DecidableEq, Repr

/-- The message loop of `voice_chat_endpoint` (main.py 136-170), run with
current session index `k`; returns the action trace, ending with the
`finally` stop of whichever session is current when the loop exits. -/
def endpointLoop (connectOk : Nat → Bool) : Nat → List CMsg → List Act
  | k, [] => [Act.stopSession k]
  | k, CMsg.append d :: rest =>
      (if d.getD "" = "" then [] else [Act.forwardAudio k (d.getD "")]) ++
        endpointLoop connectOk k rest
  | k, CMsg.reset :: rest =>
      if connectOk (k + 1) then
        Act.stopSession k :: Act.startSession (k + 1) :: Act.cancelPumps k ::
          Act.spawnPumps (k + 1) :: Act.sendResetDone ::
            endpointLoop connectOk (k + 1) rest
      else
        [Act.stopSession k, Act.sendError, Act.stopSession (k + 1)]
  | k, CMsg.other _ :: rest => endpointLoop connectOk k rest
  | k, CMsg.malformed :: rest => endpointLoop connectOk k rest

/-- The whole endpoint (main.py 108-170): missing API key sends one
`error` and closes with code 4010 before any session exists; otherwise
session 0 is started, `session.ready` is sent, the response task spawned,
and the message loop runs. -/
def endpointRun (hasKey : Bool) (connectOk : Nat → Bool)
    (msgs : List CMsg) : List Act :=
  if hasKey then
    if connectOk 0 then
      Act.startSession 0 :: Act.sendReady :: Act.spawnPumps 0 ::
        endpointLoop connectOk 0 msgs
    else
      [Act.sendError, Act.stopSession 0]
  else
    [Act.sendError]

/-- Readiness-relevant actions: session starts and the two client events
that signal readiness of a session (`session.ready` for the initial
session, `session.reset.done` for a session created by a reset). -/
def isStartOrReadiness : Act → Bool
  | Act.startSession _ => true
  | Act.sendReady => true
  | Act.sendResetDone => true
  | _ => false

/-- The client event that signals readiness of session `k`:
`session.ready` for the initial session, `session.reset.done` for each
session created by a reset. -/
def readinessOf : Nat → Act
  | 0 => Act.sendReady
  | _ + 1 => Act.sendResetDone

/-- A trace projection in which every started session is immediately
followed by exactly one readiness event for it, sessions in creation
order starting at `k`. -/
inductive ReadyPaired : Nat → List Act → Prop
  | nil (k : Nat) : ReadyPaired k []
  | pair (k : Nat) (rest : List Act) :
      ReadyPaired (k + 1) rest →
      ReadyPaired k (Act.startSession k :: readinessOf k :: rest)

/-! ## Small-step interleaving machine for the `session.reset` window

Models the tasks alive while the handler processes one `session.reset`
message (main.py 146-155), under the cooperative scheduling model: any
runnable task may take the next step.

Tasks: the endpoint handler; the old session's transcript pump
(`_handle_transcripts`), audio pump (`_handle_audio`) and upstream receive
loop (`_run_session`); and the new session's receive loop once spawned.
The handler's `await session.start()` spawns the new `_run_session` task
and blocks until that task has entered the connection context and set the
ready event; after setting ready the new receive loop keeps running and
may process buffered upstream events — and hence enqueue into the new
session's queues — before the handler is scheduled again.  Connects are
assumed to succeed inside this window; cancellation takes effect at the
cancelled task's next step.  Each session's pumps poll only that session's
own queues, exactly as in the source. -/

inductive RTask
  | handler
  | oldTPump
  | oldAPump
  | oldRecv
  | newRecv
  deriving DecidableEq, Repr

inductive RAct
  | oldStopFlag
  | oldClose
  | spawnNewRecv
  | cancelOldPumps
  | spawnNewPumps
  | sendResetDone
  | newRecvStart
  | newEnqueue
  | oldRecvEnqueue
  | oldTranscriptSend
  | oldAudioDeltaSend
  | oldAudioDoneSend
  deriving DecidableEq, Repr

structure RState where
  hpc : Nat
  oldVcsRunning : Bool
  oldGRunning : Bool
  newGRunning : Bool
  newReady : Bool
  oldPumpsCancelled : Bool
  oldRecvAlive : Bool
  newRecvAlive : Bool
  newRecvStarted : Bool
  oldTAlive : Bool
  oldAAlive : Bool
  upOld : List ServerContent
  upNew : List ServerContent
  oldTQ : List TranscriptItem
  oldAQ : List (Option String)
  newTQ : List TranscriptItem
  newAQ : List (Option String)
  acts : List RAct
  deriving DecidableEq, Repr

/-- One handler step, following main.py 146-155 in program order:
`session.stop()` first clears `is_running` (main.py 56), then closes the
old upstream session, cancelling its receive loop (main.py 57,
realtime_api.py 170-178); a fresh `VoiceChatSession` is built and
`start()` spawns the new `_run_session` and blocks on the ready event
(realtime_api.py 112-117); then `response_task.cancel()` (main.py 151),
`create_task(session.process_responses())` (main.py 152), and the
`session.reset.done` send (main.py 153-155). -/
def handlerStep (s : RState) : RState :=
  if s.hpc = 0 then
    { s with oldVcsRunning := false, hpc := 1,
             acts := s.acts ++ [RAct.oldStopFlag] }
  else if s.hpc = 1 then
    { s with oldGRunning := false, oldRecvAlive := false, hpc := 2,
             acts := s.acts ++ [RAct.oldClose] }
  else if s.hpc = 2 then
    { s with newRecvAlive := true, newGRunning := true, hpc := 3,
             acts := s.acts ++ [RAct.spawnNewRecv] }
  else if s.hpc = 3 then
    if s.newReady then
      { s with oldPumpsCancelled := true, hpc := 4,
               acts := s.acts ++ [RAct.cancelOldPumps] }
    else s
  else if s.hpc = 4 then
    { s with hpc := 5, acts := s.acts ++ [RAct.spawnNewPumps] }
  else if s.hpc = 5 then
    { s with hpc := 6, acts := s.acts ++ [RAct.sendResetDone] }
  else s

/-- One step of the new session's `_run_session` (realtime_api.py 52-100):
first entering the connection context and setting the ready event
(lines 62-64), then processing one buffered server event per step,
enqueueing into the new session's queues. -/
def newRecvStep (s : RState) : RState :=
  if !s.newRecvAlive then s
  else if !s.newRecvStarted then
    { s with newRecvStarted := true, newReady := true,
             acts := s.acts ++ [RAct.newRecvStart] }
  else
    match s.upNew with
    | [] => s
    | e :: rest =>
        if s.newGRunning then
          { s with upNew := rest,
                   newTQ := s.newTQ ++ transcriptPuts e,
                   newAQ := s.newAQ ++ audioPuts e,
                   acts := s.acts ++
                     (if (transcriptPuts e).isEmpty && (audioPuts e).isEmpty
                      then [] else [RAct.newEnqueue]) }
        else { s with newRecvAlive := false }

/-- One step of the old session's `_run_session`: processes one buffered
server event while its `_is_running` flag holds, else exits
(realtime_api.py 67-69). -/
def oldRecvStep (s : RState) : RState :=
  if !s.oldRecvAlive then s
  else if !s.oldGRunning then { s with oldRecvAlive := false }
  else
    match s.upOld with
    | [] => s
    | e :: rest =>
        { s with upOld := rest,
                 oldTQ := s.oldTQ ++ transcriptPuts e,
                 oldAQ := s.oldAQ ++ audioPuts e,
                 acts := s.acts ++
                   (if (transcriptPuts e).isEmpty && (audioPuts e).isEmpty
                    then [] else [RAct.oldRecvEnqueue]) }

/-- One step of the old transcript pump (`_handle_transcripts`,
main.py 74-84, over `get_transcripts`, realtime_api.py 153-168): dies when
cancelled; the generator exits when the old `_is_running` flag is false;
a dequeued item is sent only if `is_running` still holds, else the pump
breaks after the dequeue. -/
def oldTPumpStep (s : RState) : RState :=
  if !s.oldTAlive then s
  else if s.oldPumpsCancelled then { s with oldTAlive := false }
  else if !s.oldGRunning then { s with oldTAlive := false }
  else
    match s.oldTQ with
    | [] => s
    | _ :: rest =>
        if s.oldVcsRunning then
          { s with oldTQ := rest, acts := s.acts ++ [RAct.oldTranscriptSend] }
        else { s with oldTQ := rest, oldTAlive := false }

/-- One step of the old audio pump (`_handle_audio`, main.py 86-98, over
`get_audio_chunks`, realtime_api.py 133-151): dies when cancelled; when
the old `_is_running` flag is false `get_audio_chunks` returns and the
pump sends `audio.done` before re-checking `is_running`; a sentinel
dequeue likewise triggers an `audio.done` send; a data chunk triggers a
`response.audio.delta` send. -/
def oldAPumpStep (s : RState) : RState :=
  if !s.oldAAlive then s
  else if s.oldPumpsCancelled then { s with oldAAlive := false }
  else if !s.oldGRunning then
    { s with oldAAlive := s.oldVcsRunning,
             acts := s.acts ++ [RAct.oldAudioDoneSend] }
  else
    match s.oldAQ with
    | [] => s
    | none :: rest =>
        { s with oldAQ := rest, oldAAlive := s.oldVcsRunning,
                 acts := s.acts ++ [RAct.oldAudioDoneSend] }
    | some _ :: rest =>
        { s with oldAQ := rest, acts := s.acts ++ [RAct.oldAudioDeltaSend] }

def stepR (s : RState) : RTask → RState
  | RTask.handler => handlerStep s
  | RTask.oldTPump => oldTPumpStep s
  | RTask.oldAPump => oldAPumpStep s
  | RTask.oldRecv => oldRecvStep s
  | RTask.newRecv => newRecvStep s

/-- Run the machine under a schedule (one task chosen per step; a blocked
or dead task's step is a no-op). -/
def runReset (s : RState) : List RTask → RState
  | [] => s
  | t :: ts => runReset (stepR s t) ts

/-- Initial state of the reset window: the handler has just read the
`session.reset` message; the old session is fully running with buffered
upstream events `upOld` and queue contents `oldT` / `oldA`; the new
session does not exist yet; `upNew` are the upstream events the new
connection will deliver. -/
def initReset (upOld upNew : List ServerContent)
    (oldT : List TranscriptItem) (oldA : List (Option String)) : RState :=
  { hpc := 0, oldVcsRunning := true, oldGRunning := true,
    newGRunning := false, newReady := false, oldPumpsCancelled := false,
    oldRecvAlive := true, newRecvAlive := false, newRecvStarted := false,
    oldTAlive := true, oldAAlive := true,
    upOld := upOld, upNew := upNew, oldTQ := oldT, oldAQ := oldA,
    newTQ := [], newAQ := [], acts := [] }

/-- The handler's actions during a reset, in source order
(main.py 146-155). -/
def HCanon : List RAct :=
  [RAct.oldStopFlag, RAct.oldClose, RAct.spawnNewRecv,
   RAct.cancelOldPumps, RAct.spawnNewPumps, RAct.sendResetDone]

def isHandlerAct : RAct → Bool
  | RAct.oldStopFlag => true
  | RAct.oldClose => true
  | RAct.spawnNewRecv => true
  | RAct.cancelOldPumps => true
  | RAct.spawnNewPumps => true
  | RAct.sendResetDone => true
  | _ => false

/-- Client-event sends performed by the old session's pumps. -/
def isOldSend : RAct → Bool
  | RAct.oldTranscriptSend => true
  | RAct.oldAudioDeltaSend => true
  | RAct.oldAudioDoneSend => true
  | _ => false

/-- Second machine invariant: the old pumps are cancelled exactly from the
handler's cancellation step on; `session.reset.done` is on the wire exactly
once the handler has finished; and no old-pump send ever follows the
`session.reset.done` send (old-pump sends happen only while not cancelled,
which is strictly before the reset-done send). -/
def RInv2 (s : RState) : Prop :=
  (s.oldPumpsCancelled = false ↔ s.hpc ≤ 3) ∧
  (RAct.sendResetDone ∈ s.acts ↔ 6 ≤ s.hpc) ∧
  (∀ x, isOldSend x = true →
    ¬ List.Sublist [RAct.sendResetDone, x] s.acts)

/-- Machine invariant: the handler's actions so far are exactly the first
`hpc` canonical reset actions; the ready event implies the new receive
loop has started; the old pumps are cancelled only after the new receive
loop has started. -/
def RInv (s : RState) : Prop :=
  s.acts.filter isHandlerAct = HCanon.take s.hpc ∧
  (s.newReady = true → RAct.newRecvStart ∈ s.acts) ∧
  (RAct.cancelOldPumps ∈ s.acts →
    List.Sublist [RAct.newRecvStart, RAct.cancelOldPumps] s.acts) ∧
  (s.hpc ≤ 3 → RAct.cancelOldPumps ∉ s.acts)

/-! ### Helper lemmas about `dropWhile` and `stripChars` -/

theorem head?_dropWhile_not (p : Char → Bool) :
    ∀ (l : List Char) (a : Char), (l.dropWhile p).head? = some a → p a = false := by
  intro l
  induction l with
  | nil => intro a h; simp [List.dropWhile] at h
  | cons x xs ih =>
      intro a h
      by_cases hx : p x
      · rw [List.dropWhile_cons_of_pos hx] at h
        exact ih a h
      · rw [List.dropWhile_cons_of_neg hx] at h
        simp at h
        subst h
        simpa using hx

theorem getLast?_dropWhile (p : Char → Bool) :
    ∀ (l : List Char), l.dropWhile p ≠ [] → (l.dropWhile p).getLast? = l.getLast? := by
  intro l
  induction l with
  | nil => intro h; simp [List.dropWhile] at h
  | cons x xs ih =>
      intro h
      by_cases hx : p x
      · rw [List.dropWhile_cons_of_pos hx] at h ⊢
        cases xs with
        | nil => simp [List.dropWhile] at h
        | cons y ys => rw [ih h, List.getLast?_cons_cons]
      · rw [List.dropWhile_cons_of_neg hx]

/-- If the stripped list is non-empty, its first character is not
whitespace. -/
theorem stripChars_head_not_space (l : List Char) (a : Char)
    (h : (stripChars l).head? = some a) : pyIsSpace a = false := by
  unfold stripChars at h
  rw [List.head?_reverse] at h
  set r := (l.dropWhile pyIsSpace).reverse with hr
  have hne : r.dropWhile pyIsSpace ≠ [] := by
    intro he
    rw [he] at h
    simp at h
  rw [getLast?_dropWhile pyIsSpace r hne] at h
  rw [hr, List.getLast?_reverse] at h
  exact head?_dropWhile_not pyIsSpace _ a h

/-- If the stripped list is non-empty, its last character is not
whitespace. -/
theorem stripChars_getLast_not_space (l : List Char) (a : Char)
    (h : (stripChars l).getLast? = some a) : pyIsSpace a = false := by
  unfold stripChars at h
  rw [List.getLast?_reverse] at h
  exact head?_dropWhile_not pyIsSpace _ a h

/-! ### Audio pump lemmas -/

theorem get_audio_chunks_budget {α : Type} :
    ∀ (b : Nat) (q : List (Option α)),
      ((get_audio_chunks q b).reason = PollReason.sentinel →
        (get_audio_chunks q b).budget < b) ∧
      ((get_audio_chunks q b).reason = PollReason.flagExit →
        (get_audio_chunks q b).budget = 0) := by
  intro b
  induction b with
  | zero => intro q; cases q <;> simp [get_audio_chunks]
  | succ b ih =>
      intro q
      match q with
      | [] =>
          refine ⟨fun h => ?_, fun h => ?_⟩
          · exact Nat.lt_succ_of_lt ((ih []).1 h) |>.trans_le (Nat.le_refl _)
          · exact (ih []).2 h
      | none :: rest => simp [get_audio_chunks]
      | some a :: rest =>
          refine ⟨fun h => ?_, fun h => ?_⟩
          · simp [get_audio_chunks] at h ⊢
            exact Nat.lt_succ_of_lt ((ih rest).1 h)
          · simp [get_audio_chunks] at h ⊢
            exact (ih rest).2 h

theorem get_audio_chunks_consumed {α : Type} :
    ∀ (b : Nat) (q : List (Option α)),
      (get_audio_chunks q b).consumed =
        (get_audio_chunks q b).chunks.map some ++
          (if (get_audio_chunks q b).reason = PollReason.sentinel
           then [none] else []) := by
  intro b
  induction b with
  | zero => intro q; cases q <;> simp [get_audio_chunks]
  | succ b ih =>
      intro q
      match q with
      | [] => exact ih []
      | none :: rest => simp [get_audio_chunks]
      | some a :: rest => simp [get_audio_chunks, ih rest]

theorem doneCount_delta_map {α : Type} (cs : List α) :
    doneCount (cs.map AudioEv.delta) = 0 := by
  induction cs with
  | nil => rfl
  | cons a t ih =>
      simp only [List.map_cons, doneCount, List.countP_cons] at ih ⊢
      simp [ih]

theorem sentinelCount_some_map {α : Type} (cs : List α) :
    sentinelCount (cs.map Option.some) = 0 := by
  induction cs with
  | nil => rfl
  | cons a t ih =>
      simp only [List.map_cons, sentinelCount, List.countP_cons] at ih ⊢
      simp [ih]

theorem doneCount_append {α : Type} (l₁ l₂ : List (AudioEv α)) :
    doneCount (l₁ ++ l₂) = doneCount l₁ + doneCount l₂ :=
  List.countP_append _ _ _

theorem sentinelCount_append {α : Type} (l₁ l₂ : List (Option α)) :
    sentinelCount (l₁ ++ l₂) = sentinelCount l₁ + sentinelCount l₂ :=
  List.countP_append _ _ _

theorem doneCount_cons_done {α : Type} (l : List (AudioEv α)) :
    doneCount (AudioEv.done :: l) = doneCount l + 1 := by
  simp [doneCount, List.countP_cons]

theorem sentinelCount_cons_none {α : Type} (l : List (Option α)) :
    sentinelCount ((none : Option α) :: l) = sentinelCount l + 1 := by
  simp [sentinelCount, List.countP_cons]

/-- Count invariant of the audio pump: every `audio.done` except the
trailing flag-exit one matches exactly one dequeued sentinel. -/
theorem handle_audio_fuel_doneCount {α : Type} :
    ∀ (fuel : Nat) (q : List (Option α)) (b : Nat), b ≤ fuel →
      doneCount (handle_audio_fuel fuel q b).events =
        sentinelCount (handle_audio_fuel fuel q b).consumed +
          (if (handle_audio_fuel fuel q b).endedInside then 1 else 0) := by
  intro fuel
  induction fuel with
  | zero =>
      intro q b _
      simp [handle_audio_fuel, doneCount, sentinelCount]
  | succ fuel ih =>
      intro q b hb
      match b with
      | 0 => simp [handle_audio_fuel, doneCount, sentinelCount]
      | b + 1 =>
          rcases hr : get_audio_chunks q (b + 1) with ⟨cs, con, rest, b', reason⟩
          have hcon := get_audio_chunks_consumed (α := α) (b + 1) q
          have hbud := get_audio_chunks_budget (α := α) (b + 1) q
          rw [hr] at hcon hbud
          cases reason with
          | sentinel =>
              have hb2 : b' < b + 1 := hbud.1 rfl
              have hb'le : b' ≤ fuel := by omega
              have hcon' : con = cs.map some ++ [none] := by
                simpa using hcon
              simp only [handle_audio_fuel, hr, hcon']
              rw [doneCount_append, doneCount_delta_map, doneCount_cons_done,
                sentinelCount_append, sentinelCount_append,
                sentinelCount_some_map]
              have ihr := ih rest b' hb'le
              cases he : (handle_audio_fuel fuel rest b').endedInside <;>
                rw [he] at ihr <;> simp [sentinelCount] at ihr ⊢ <;> omega
          | flagExit =>
              have hcon' : con = cs.map some := by
                simpa using hcon
              simp only [handle_audio_fuel, hr, hcon']
              rw [doneCount_append, doneCount_delta_map,
                sentinelCount_some_map]
              simp [doneCount, List.countP_cons]

theorem handle_audio_doneCount {α : Type} (q : List (Option α)) (b : Nat) :
    doneCount (handle_audio q b).events =
      sentinelCount (handle_audio q b).consumed +
        (if (handle_audio q b).endedInside then 1 else 0) :=
  handle_audio_fuel_doneCount b q b (Nat.le_refl b)

/-- `get_audio_chunks` on a queue whose front is one complete turn:
consumes exactly the turn and its sentinel. -/
theorem get_audio_chunks_turn {α : Type} :
    ∀ (t : List α) (rest : List (Option α)) (b : Nat),
      get_audio_chunks (t.map some ++ none :: rest) (t.length + b + 1) =
        ⟨t, t.map some ++ [none], rest, b, PollReason.sentinel⟩ := by
  intro t
  induction t with
  | nil => intro rest b; simp [get_audio_chunks]
  | cons a t ih =>
      intro rest b
      have harith : (a :: t).length + b + 1 = (t.length + b + 1) + 1 := by
        simp [List.length_cons]; omega
      rw [harith]
      simp only [List.map_cons, List.cons_append]
      simp only [get_audio_chunks, List.append_eq]
      rw [ih rest b]

/-- The audio pump on a queue of complete turns, with exactly the budget
needed to drain it: produces each turn's deltas followed by its
`audio.done`, turn by turn, with no trailing flag-exit event. -/
theorem handle_audio_fuel_turns {α : Type} :
    ∀ (fuel : Nat) (turns : List (List α)), turns.length ≤ fuel →
      handle_audio_fuel fuel (encodeTurns turns) (encodeTurns turns).length =
        ⟨turnEvents turns, encodeTurns turns, false⟩ := by
  intro fuel
  induction fuel with
  | zero =>
      intro turns h
      have : turns = [] := List.length_eq_zero.mp (Nat.le_zero.mp h)
      subst this
      simp [encodeTurns, turnEvents, handle_audio_fuel]
  | succ fuel ih =>
      intro turns h
      cases turns with
      | nil => simp [encodeTurns, turnEvents, handle_audio_fuel]
      | cons t ts =>
          have hts : ts.length ≤ fuel := Nat.lt_succ_iff.mp h
          have hq : encodeTurns (t :: ts) =
              t.map some ++ none :: encodeTurns ts := by
            simp [encodeTurns]
          have hlen : (encodeTurns (t :: ts)).length =
              t.length + (encodeTurns ts).length + 1 := by
            rw [hq]; simp [List.length_append]; omega
          rw [hlen, hq]
          simp only [handle_audio_fuel, get_audio_chunks_turn t (encodeTurns ts)
            (encodeTurns ts).length, ih ts hts]
          simp [turnEvents, encodeTurns]

theorem handle_audio_turns {α : Type} (turns : List (List α)) :
    handle_audio (encodeTurns turns) (encodeTurns turns).length =
      ⟨turnEvents turns, encodeTurns turns, false⟩ := by
  apply handle_audio_fuel_turns
  have : turns.length ≤ (turns.map (fun t => t.map some ++ [none])).flatten.length := by
    induction turns with
    | nil => simp
    | cons t ts ihh =>
        simp only [List.map_cons, List.flatten_cons, List.length_append,
          List.length_cons]
        simp at ihh ⊢
        omega
  simpa [encodeTurns] using this

/-! ### Reset-machine invariant lemmas -/

theorem filter_handler_append (l ext : List RAct)
    (h : ext.filter isHandlerAct = []) :
    (l ++ ext).filter isHandlerAct = l.filter isHandlerAct := by
  rw [List.filter_append, h, List.append_nil]

theorem mem_of_mem_append_not_right {a : RAct} {l ext : List RAct}
    (h : a ∈ l ++ ext) (hne : a ∉ ext) : a ∈ l := by
  rcases List.mem_append.mp h with h1 | h2
  · exact h1
  · exact absurd h2 hne

theorem sublist_append_ext {l₁ l ext : List RAct} (h : List.Sublist l₁ l) :
    List.Sublist l₁ (l ++ ext) :=
  h.trans (List.sublist_append_left l ext)

theorem pair_sublist_append {a b : RAct} {l : List RAct} (h : a ∈ l) :
    List.Sublist [a, b] (l ++ [b]) := by
  have h1 : List.Sublist [a] l := List.singleton_sublist.mpr h
  simpa using h1.append (List.Sublist.refl [b])

/-- A step that appends only non-handler actions, keeps `hpc`, and does
not freshly set the ready flag preserves the invariant. -/
theorem rinv_nonhandler {s s' : RState} (hInv : RInv s) (ext : List RAct)
    (hacts : s'.acts = s.acts ++ ext)
    (hhpc : s'.hpc = s.hpc)
    (hfil : ext.filter isHandlerAct = [])
    (hcanc : RAct.cancelOldPumps ∉ ext)
    (hready : s'.newReady = true → RAct.newRecvStart ∈ s'.acts) :
    RInv s' := by
  obtain ⟨h1, _, h3, h4⟩ := hInv
  refine ⟨?_, hready, ?_, ?_⟩
  · rw [hacts, hhpc, filter_handler_append _ _ hfil, h1]
  · intro hc
    rw [hacts] at hc ⊢
    exact sublist_append_ext (h3 (mem_of_mem_append_not_right hc hcanc))
  · intro hle hc
    rw [hacts] at hc
    exact absurd (mem_of_mem_append_not_right hc hcanc) (h4 (hhpc ▸ hle))

/-- A step that changes nothing relevant (no act appended, same `hpc`,
ready flag not freshly set) preserves the invariant. -/
theorem rinv_nonhandler_nil {s s' : RState} (hInv : RInv s)
    (hacts : s'.acts = s.acts) (hhpc : s'.hpc = s.hpc)
    (hready : s'.newReady = s.newReady) : RInv s' := by
  obtain ⟨h1, h2, h3, h4⟩ := hInv
  exact ⟨by rw [hacts, hhpc, h1], by rw [hacts, hready]; exact h2,
    by rw [hacts]; exact h3, by rw [hacts, hhpc]; exact h4⟩

theorem rinv_step (s : RState) (t : RTask) (hInv : RInv s) :
    RInv (stepR s t) := by
  obtain ⟨h1, h2, h3, h4⟩ := hInv
  cases t with
  | handler =>
      show RInv (handlerStep s)
      unfold handlerStep
      by_cases e0 : s.hpc = 0
      · rw [if_pos e0]
        rw [e0] at h1 h4
        refine ⟨?_, ?_, ?_, ?_⟩
        · show List.filter isHandlerAct (s.acts ++ [RAct.oldStopFlag]) =
            HCanon.take 1
          rw [List.filter_append, h1]; rfl
        · intro hr; exact List.mem_append_left _ (h2 hr)
        · intro hc
          exact absurd (mem_of_mem_append_not_right hc (by simp))
            (h4 (by omega))
        · intro _ hc
          exact absurd (mem_of_mem_append_not_right hc (by simp))
            (h4 (by omega))
      · rw [if_neg e0]
        by_cases e1 : s.hpc = 1
        · rw [if_pos e1]
          rw [e1] at h1 h4
          refine ⟨?_, ?_, ?_, ?_⟩
          · show List.filter isHandlerAct (s.acts ++ [RAct.oldClose]) =
              HCanon.take 2
            rw [List.filter_append, h1]; rfl
          · intro hr; exact List.mem_append_left _ (h2 hr)
          · intro hc
            exact absurd (mem_of_mem_append_not_right hc (by simp))
              (h4 (by omega))
          · intro _ hc
            exact absurd (mem_of_mem_append_not_right hc (by simp))
              (h4 (by omega))
        · rw [if_neg e1]
          by_cases e2 : s.hpc = 2
          · rw [if_pos e2]
            rw [e2] at h1 h4
            refine ⟨?_, ?_, ?_, ?_⟩
            · show List.filter isHandlerAct (s.acts ++ [RAct.spawnNewRecv]) =
                HCanon.take 3
              rw [List.filter_append, h1]; rfl
            · intro hr; exact List.mem_append_left _ (h2 hr)
            · intro hc
              exact absurd (mem_of_mem_append_not_right hc (by simp))
                (h4 (by omega))
            · intro _ hc
              exact absurd (mem_of_mem_append_not_right hc (by simp))
                (h4 (by omega))
          · rw [if_neg e2]
            by_cases e3 : s.hpc = 3
            · rw [if_pos e3]
              rw [e3] at h1 h4
              by_cases hr : s.newReady = true
              · rw [if_pos hr]
                refine ⟨?_, ?_, ?_, ?_⟩
                · show List.filter isHandlerAct
                    (s.acts ++ [RAct.cancelOldPumps]) = HCanon.take 4
                  rw [List.filter_append, h1]; rfl
                · intro _; exact List.mem_append_left _ (h2 hr)
                · intro _; exact pair_sublist_append (h2 hr)
                · intro hle; simp at hle
              · rw [if_neg hr]
                exact ⟨by rw [h1, e3], h2, h3, by rw [e3]; exact h4⟩
            · rw [if_neg e3]
              by_cases e4 : s.hpc = 4
              · rw [if_pos e4]
                rw [e4] at h1
                refine ⟨?_, ?_, ?_, ?_⟩
                · show List.filter isHandlerAct
                    (s.acts ++ [RAct.spawnNewPumps]) = HCanon.take 5
                  rw [List.filter_append, h1]; rfl
                · intro hr; exact List.mem_append_left _ (h2 hr)
                · intro hc
                  exact sublist_append_ext
                    (h3 (mem_of_mem_append_not_right hc (by simp)))
                · intro hle; simp at hle
              · rw [if_neg e4]
                by_cases e5 : s.hpc = 5
                · rw [if_pos e5]
                  rw [e5] at h1
                  refine ⟨?_, ?_, ?_, ?_⟩
                  · show List.filter isHandlerAct
                      (s.acts ++ [RAct.sendResetDone]) = HCanon.take 6
                    rw [List.filter_append, h1]; rfl
                  · intro hr; exact List.mem_append_left _ (h2 hr)
                  · intro hc
                    exact sublist_append_ext
                      (h3 (mem_of_mem_append_not_right hc (by simp)))
                  · intro hle; simp at hle
                · rw [if_neg e5]
                  exact ⟨h1, h2, h3, h4⟩
  | oldTPump =>
      show RInv (oldTPumpStep s)
      unfold oldTPumpStep
      split
      · exact ⟨h1, h2, h3, h4⟩
      · split
        · exact ⟨h1, h2, h3, h4⟩
        · split
          · exact ⟨h1, h2, h3, h4⟩
          · split
            · exact ⟨h1, h2, h3, h4⟩
            · split
              · exact rinv_nonhandler ⟨h1, h2, h3, h4⟩
                  [RAct.oldTranscriptSend] rfl rfl rfl (by simp)
                  (fun hr => List.mem_append_left _ (h2 hr))
              · exact ⟨h1, h2, h3, h4⟩
  | oldAPump =>
      show RInv (oldAPumpStep s)
      unfold oldAPumpStep
      split
      · exact ⟨h1, h2, h3, h4⟩
      · split
        · exact ⟨h1, h2, h3, h4⟩
        · split
          · exact rinv_nonhandler ⟨h1, h2, h3, h4⟩
              [RAct.oldAudioDoneSend] rfl rfl rfl (by simp)
              (fun hr => List.mem_append_left _ (h2 hr))
          · split
            · exact ⟨h1, h2, h3, h4⟩
            · exact rinv_nonhandler ⟨h1, h2, h3, h4⟩
                [RAct.oldAudioDoneSend] rfl rfl rfl (by simp)
                (fun hr => List.mem_append_left _ (h2 hr))
            · exact rinv_nonhandler ⟨h1, h2, h3, h4⟩
                [RAct.oldAudioDeltaSend] rfl rfl rfl (by simp)
                (fun hr => List.mem_append_left _ (h2 hr))
  | oldRecv =>
      show RInv (oldRecvStep s)
      unfold oldRecvStep
      split
      · exact ⟨h1, h2, h3, h4⟩
      · split
        · exact ⟨h1, h2, h3, h4⟩
        · split
          · exact ⟨h1, h2, h3, h4⟩
          · refine rinv_nonhandler ⟨h1, h2, h3, h4⟩ _ rfl rfl ?_ ?_
              (fun hr => List.mem_append_left _ (h2 hr))
            · split <;> simp [isHandlerAct]
            · split <;> simp
  | newRecv =>
      show RInv (newRecvStep s)
      unfold newRecvStep
      split
      · exact ⟨h1, h2, h3, h4⟩
      · split
        · refine rinv_nonhandler ⟨h1, h2, h3, h4⟩
            [RAct.newRecvStart] rfl rfl rfl (by simp) ?_
          intro _
          exact List.mem_append_right _ (by simp)
        · split
          · exact ⟨h1, h2, h3, h4⟩
          · split
            · refine rinv_nonhandler ⟨h1, h2, h3, h4⟩ _ rfl rfl ?_ ?_
                (fun hr => List.mem_append_left _ (h2 hr))
              · split <;> simp [isHandlerAct]
              · split <;> simp
            · exact ⟨h1, h2, h3, h4⟩

theorem rinv_run : ∀ (sched : List RTask) (s : RState),
    RInv s → RInv (runReset s sched) := by
  intro sched
  induction sched with
  | nil => intro s h; exact h
  | cons t ts ih => intro s h; exact ih (stepR s t) (rinv_step s t h)

theorem rinv_init (upOld upNew : List ServerContent)
    (oldT : List TranscriptItem) (oldA : List (Option String)) :
    RInv (initReset upOld upNew oldT oldA) := by
  refine ⟨rfl, ?_, ?_, ?_⟩
  · intro h; simp [initReset] at h
  · intro h; simp [initReset] at h
  · intro _; simp [initReset]

/-- Decomposing a two-element sublist of `l ++ [c]`: either it lies in
`l`, or its second element is the appended `c` and its first lies in `l`. -/
theorem pair_sublist_snoc {a b c : RAct} :
    ∀ (l : List RAct), List.Sublist [a, b] (l ++ [c]) →
      List.Sublist [a, b] l ∨ (b = c ∧ a ∈ l) := by
  intro l
  induction l with
  | nil =>
      intro h
      have := h.length_le
      simp at this
  | cons hd tl ih =>
      intro h
      rw [List.cons_append] at h
      cases h with
      | cons _ h' =>
          rcases ih h' with h1 | ⟨hbc, hmem⟩
          · exact Or.inl (List.Sublist.cons _ h1)
          · exact Or.inr ⟨hbc, List.mem_cons_of_mem _ hmem⟩
      | cons₂ _ h' =>
          have hb : b ∈ tl ++ [c] := List.singleton_sublist.mp h'
          rcases List.mem_append.mp hb with h1 | h2
          · exact Or.inl
              (List.Sublist.cons₂ _ (List.singleton_sublist.mpr h1))
          · simp at h2
            exact Or.inr ⟨h2, List.mem_cons_self _ _⟩

/-- Appending a non-old-send action preserves the no-old-send-after-
reset-done property. -/
theorem i7_append_notold {acts : List RAct} {a : RAct}
    (h : ∀ x, isOldSend x = true →
      ¬ List.Sublist [RAct.sendResetDone, x] acts)
    (ha : isOldSend a = false) :
    ∀ x, isOldSend x = true →
      ¬ List.Sublist [RAct.sendResetDone, x] (acts ++ [a]) := by
  intro x hx hs
  rcases pair_sublist_snoc acts hs with h1 | ⟨hxa, _⟩
  · exact h x hx h1
  · rw [hxa] at hx
    rw [hx] at ha
    simp at ha

/-- Appending any action while `session.reset.done` is not yet on the wire
preserves the no-old-send-after-reset-done property. -/
theorem i7_append_no_rd {acts : List RAct} {a : RAct}
    (_ : ∀ x, isOldSend x = true →
      ¬ List.Sublist [RAct.sendResetDone, x] acts)
    (hrd : RAct.sendResetDone ∉ acts) :
    ∀ x, isOldSend x = true →
      ¬ List.Sublist [RAct.sendResetDone, x] (acts ++ [a]) := by
  intro x hx hs
  rcases pair_sublist_snoc acts hs with h1 | ⟨_, hmem⟩
  · exact hrd (h1.subset (by simp))
  · exact hrd hmem

/-- Appending an action other than `sendResetDone` keeps the
reset-done-on-wire characterisation, for any target counter both sides
of which stay below 6. -/
theorem rinv2_mem_append_small {l : List RAct} {k k' : Nat}
    (j2 : RAct.sendResetDone ∈ l ↔ 6 ≤ k) (hk : k ≤ 5) (hk' : k' ≤ 5)
    {a : RAct} (hne : a ≠ RAct.sendResetDone) :
    RAct.sendResetDone ∈ l ++ [a] ↔ 6 ≤ k' := by
  constructor
  · intro hm
    rcases List.mem_append.mp hm with hm | hm
    · have := j2.mp hm
      omega
    · simp at hm
      exact absurd hm.symm hne
  · intro hm
    exact absurd hm (by omega)

/-- An append performed while the old pumps are not cancelled preserves
the last two components of `RInv2`. -/
theorem rinv2_append_uncancelled {s : RState} (hInv : RInv2 s)
    (hnc : ¬ s.oldPumpsCancelled = true) {a : RAct}
    (hne : a ≠ RAct.sendResetDone) :
    (RAct.sendResetDone ∈ s.acts ++ [a] ↔ 6 ≤ s.hpc) ∧
    (∀ x, isOldSend x = true →
      ¬ List.Sublist [RAct.sendResetDone, x] (s.acts ++ [a])) := by
  obtain ⟨j1, j2, j3⟩ := hInv
  have hfalse : s.oldPumpsCancelled = false := by
    rcases hcc : s.oldPumpsCancelled with _ | _
    · rfl
    · exact absurd hcc hnc
  have hle := j1.mp hfalse
  have hrd : RAct.sendResetDone ∉ s.acts := by
    intro hm
    have := j2.mp hm
    omega
  refine ⟨?_, i7_append_no_rd j3 hrd⟩
  constructor
  · intro hm
    rcases List.mem_append.mp hm with hm | hm
    · exact j2.mp hm
    · simp at hm
      exact absurd hm.symm hne
  · intro hm
    exact List.mem_append_left _ (j2.mpr hm)

theorem rinv2_step (s : RState) (t : RTask) (hInv : RInv2 s) :
    RInv2 (stepR s t) := by
  obtain ⟨j1, j2, j3⟩ := hInv
  cases t with
  | handler =>
      show RInv2 (handlerStep s)
      unfold handlerStep
      by_cases e0 : s.hpc = 0
      · rw [if_pos e0]
        exact ⟨by simp [j1.mpr (show s.hpc ≤ 3 by omega)],
          rinv2_mem_append_small j2 (by omega) (by simp) (by simp),
          i7_append_notold j3 rfl⟩
      · rw [if_neg e0]
        by_cases e1 : s.hpc = 1
        · rw [if_pos e1]
          exact ⟨by simp [j1.mpr (show s.hpc ≤ 3 by omega)],
            rinv2_mem_append_small j2 (by omega) (by simp) (by simp),
            i7_append_notold j3 rfl⟩
        · rw [if_neg e1]
          by_cases e2 : s.hpc = 2
          · rw [if_pos e2]
            exact ⟨by simp [j1.mpr (show s.hpc ≤ 3 by omega)],
              rinv2_mem_append_small j2 (by omega) (by simp) (by simp),
              i7_append_notold j3 rfl⟩
          · rw [if_neg e2]
            by_cases e3 : s.hpc = 3
            · rw [if_pos e3]
              by_cases hr : s.newReady = true
              · rw [if_pos hr]
                exact ⟨by simp,
                  rinv2_mem_append_small j2 (by omega) (by simp) (by simp),
                  i7_append_notold j3 rfl⟩
              · rw [if_neg hr]
                exact ⟨j1, j2, j3⟩
            · rw [if_neg e3]
              by_cases e4 : s.hpc = 4
              · rw [if_pos e4]
                have hcan : s.oldPumpsCancelled = true := by
                  rcases hcc : s.oldPumpsCancelled with _ | _
                  · exact absurd (j1.mp hcc) (by omega)
                  · rfl
                exact ⟨by simp [hcan],
                  rinv2_mem_append_small j2 (by omega) (by simp) (by simp),
                  i7_append_notold j3 rfl⟩
              · rw [if_neg e4]
                by_cases e5 : s.hpc = 5
                · rw [if_pos e5]
                  have hcan : s.oldPumpsCancelled = true := by
                    rcases hcc : s.oldPumpsCancelled with _ | _
                    · exact absurd (j1.mp hcc) (by omega)
                    · rfl
                  refine ⟨by simp [hcan], ?_, i7_append_notold j3 rfl⟩
                  constructor
                  · intro _
                    show (6 : Nat) ≤ 6
                    omega
                  · intro _
                    exact List.mem_append_right _ (by simp)
                · rw [if_neg e5]
                  exact ⟨j1, j2, j3⟩
  | oldTPump =>
      show RInv2 (oldTPumpStep s)
      unfold oldTPumpStep
      split
      · exact ⟨j1, j2, j3⟩
      · split
        · exact ⟨j1, j2, j3⟩
        · rename_i hnc
          split
          · exact ⟨j1, j2, j3⟩
          · split
            · exact ⟨j1, j2, j3⟩
            · split
              · have hp := rinv2_append_uncancelled ⟨j1, j2, j3⟩ hnc
                  (a := RAct.oldTranscriptSend) (by simp)
                exact ⟨j1, hp.1, hp.2⟩
              · exact ⟨j1, j2, j3⟩
  | oldAPump =>
      show RInv2 (oldAPumpStep s)
      unfold oldAPumpStep
      split
      · exact ⟨j1, j2, j3⟩
      · split
        · exact ⟨j1, j2, j3⟩
        · rename_i hnc
          split
          · have hp := rinv2_append_uncancelled ⟨j1, j2, j3⟩ hnc
              (a := RAct.oldAudioDoneSend) (by simp)
            exact ⟨j1, hp.1, hp.2⟩
          · split
            · exact ⟨j1, j2, j3⟩
            · have hp := rinv2_append_uncancelled ⟨j1, j2, j3⟩ hnc
                (a := RAct.oldAudioDoneSend) (by simp)
              exact ⟨j1, hp.1, hp.2⟩
            · have hp := rinv2_append_uncancelled ⟨j1, j2, j3⟩ hnc
                (a := RAct.oldAudioDeltaSend) (by simp)
              exact ⟨j1, hp.1, hp.2⟩
  | oldRecv =>
      show RInv2 (oldRecvStep s)
      unfold oldRecvStep
      split
      · exact ⟨j1, j2, j3⟩
      · split
        · exact ⟨j1, j2, j3⟩
        · split
          · exact ⟨j1, j2, j3⟩
          · refine ⟨j1, ?_, ?_⟩
            · split
              · simpa using j2
              · constructor
                · intro hm
                  rcases List.mem_append.mp hm with hm | hm
                  · exact j2.mp hm
                  · simp at hm
                · intro hm
                  exact List.mem_append_left _ (j2.mpr hm)
            · split
              · simpa using j3
              · exact i7_append_notold j3 rfl
  | newRecv =>
      show RInv2 (newRecvStep s)
      unfold newRecvStep
      split
      · exact ⟨j1, j2, j3⟩
      · split
        · refine ⟨j1, ?_, i7_append_notold j3 rfl⟩
          constructor
          · intro hm
            rcases List.mem_append.mp hm with hm | hm
            · exact j2.mp hm
            · simp at hm
          · intro hm
            exact List.mem_append_left _ (j2.mpr hm)
        · split
          · exact ⟨j1, j2, j3⟩
          · split
            · refine ⟨j1, ?_, ?_⟩
              · split
                · simpa using j2
                · constructor
                  · intro hm
                    rcases List.mem_append.mp hm with hm | hm
                    · exact j2.mp hm
                    · simp at hm
                  · intro hm
                    exact List.mem_append_left _ (j2.mpr hm)
              · split
                · simpa using j3
                · exact i7_append_notold j3 rfl
            · exact ⟨j1, j2, j3⟩

theorem rinv2_run : ∀ (sched : List RTask) (s : RState),
    RInv2 s → RInv2 (runReset s sched) := by
  intro sched
  induction sched with
  | nil => intro s h; exact h
  | cons t ts ih => intro s h; exact ih (stepR s t) (rinv2_step s t h)

theorem rinv2_init (upOld upNew : List ServerContent)
    (oldT : List TranscriptItem) (oldA : List (Option String)) :
    RInv2 (initReset upOld upNew oldT oldA) := by
  refine ⟨by simp [initReset], by simp [initReset], ?_⟩
  intro x _ hs
  have := hs.length_le
  simp [initReset] at this

/-- The message loop starts sessions `k+1, k+2, ...` in order, and every
started session is immediately followed (among readiness-relevant
actions) by exactly one readiness event for it. -/
theorem endpointLoop_readyPaired (connectOk : Nat → Bool) :
    ∀ (msgs : List CMsg) (k : Nat),
      ReadyPaired (k + 1)
        ((endpointLoop connectOk k msgs).filter isStartOrReadiness) := by
  intro msgs
  induction msgs with
  | nil =>
      intro k
      simp only [endpointLoop, List.filter, isStartOrReadiness]
      exact ReadyPaired.nil _
  | cons m rest ih =>
      intro k
      cases m with
      | append d =>
          simp only [endpointLoop, List.filter_append]
          have hnil : (if d.getD "" = "" then ([] : List Act)
              else [Act.forwardAudio k (d.getD "")]).filter
                isStartOrReadiness = [] := by
            split <;> simp [isStartOrReadiness]
          rw [hnil]
          simpa using ih k
      | reset =>
          simp only [endpointLoop]
          by_cases hc : connectOk (k + 1)
          · rw [if_pos hc]
            simp only [List.filter_cons, isStartOrReadiness]
            simp only [Bool.false_eq_true, if_false, if_true]
            exact ReadyPaired.pair (k + 1) _ (ih (k + 1))
          · rw [if_neg hc]
            simp only [List.filter, isStartOrReadiness]
            exact ReadyPaired.nil _
      | other ty => simpa [endpointLoop] using ih k
      | malformed => simpa [endpointLoop] using ih k

/-! ### `close` lemmas -/

/-- After `close()` the session is no longer running. -/
theorem close_not_running (g : GeminiState) : (close g).1.isRunning = false := by
  rcases ht : g.task with _ | st
  · simp [close, ht]
  · cases st <;> simp [close, ht, awaitTask, catchCancelled]

/-- `close()` never lets an exception escape: the only raise on its paths
is the `CancelledError` of awaiting a task cancelled before it ran, which
the `except` block swallows. -/
theorem close_ok (g : GeminiState) : (close g).2 = none := by
  rcases ht : g.task with _ | st
  · simp [close, ht]
  · cases st <;> simp [close, ht, awaitTask, catchCancelled]

/-- `close()` is idempotent on the session state, and the second call also
raises nothing. -/
theorem close_close (g : GeminiState) : close (close g).1 = ((close g).1, none) := by
  rcases ht : g.task with _ | st
  · simp [close, ht]
  · cases st <;> simp [close, ht, awaitTask, catchCancelled]

/-- No sentinel ever comes from the model-turn audio parts; only
`turn_complete` produces one. -/
theorem sentinelCount_audioParts (parts : List (Option String)) :
    sentinelCount (parts.filterMap (fun p => match p with
      | some d => if d ≠ "" then some (some d) else none
      | none => none)) = 0 := by
  induction parts with
  | nil => rfl
  | cons p rest ih =>
      cases p with
      | none => simpa [List.filterMap_cons] using ih
      | some d =>
          by_cases hd : d = ""
          · simpa [List.filterMap_cons, hd] using ih
          · rw [List.filterMap_cons]
            have hred : (match (some d : Option String) with
                | some d => if d ≠ "" then some (some d) else none
                | none => none) = some (some d) := by
              simp [hd]
            rw [hred]
            simp only [sentinelCount] at ih ⊢
            rw [List.countP_cons, ih]
            rfl

/-! ## Claims -/

/-- Claim C1, corrected.  On a `session.reset` the handler performs, in
every execution and in this order: `stop()` of the old session (clearing
`is_running`), `close()` of the old upstream session (cancelling its
receive loop), `start()` of the new `UpstreamSession` (spawning its
receive loop), cancellation of the old pump pair, spawning of the new pump
pair, and the `session.reset.done` send — so the old pumps are cancelled
before the new pump pair is spawned and before `session.reset.done`, but
only *after* the new receive loop has started (second conjunct: a
cancellation is always preceded by the new receive loop's start).  The
old pumps read only the old session's queues, which are distinct objects
from the new session's queues, and no client event sent by the old
session's pumps ever follows the `session.reset.done` send (third
conjunct; cancellation is modelled as taking effect at the cancelled
task's next step). -/
theorem claim_C1 : ∀ (upOld upNew : List ServerContent)
    (oldT : List TranscriptItem) (oldA : List (Option String))
    (sched : List RTask),
    (∃ n, (runReset (initReset upOld upNew oldT oldA) sched).acts.filter
        isHandlerAct = HCanon.take n) ∧
    (RAct.cancelOldPumps ∈
        (runReset (initReset upOld upNew oldT oldA) sched).acts →
      List.Sublist [RAct.newRecvStart, RAct.cancelOldPumps]
        (runReset (initReset upOld upNew oldT oldA) sched).acts) ∧
    (∀ x, isOldSend x = true →
      ¬ List.Sublist [RAct.sendResetDone, x]
        (runReset (initReset upOld upNew oldT oldA) sched).acts) := by
  intro uo un ot oa sched
  obtain ⟨i1, _, i3, _⟩ := rinv_run sched _ (rinv_init uo un ot oa)
  obtain ⟨_, _, j3⟩ := rinv2_run sched _ (rinv2_init uo un ot oa)
  exact ⟨⟨_, i1⟩, i3, j3⟩

/-- Witness for C1's amended theorem at a concrete schedule in which the
cancellation occurs, with the old audio pump still scheduled after the
reset-done send. -/
theorem claim_C1_witness :
    List.Sublist [RAct.newRecvStart, RAct.cancelOldPumps]
      (runReset (initReset [] [⟨none, none, [some "AA"], false⟩] [] [])
        [RTask.handler, RTask.handler, RTask.handler, RTask.newRecv,
         RTask.newRecv, RTask.handler, RTask.handler, RTask.handler]).acts ∧
    ¬ List.Sublist [RAct.sendResetDone, RAct.oldAudioDoneSend]
      (runReset (initReset [] [⟨none, none, [some "AA"], false⟩] [] [])
        [RTask.handler, RTask.handler, RTask.handler, RTask.newRecv,
         RTask.newRecv, RTask.handler, RTask.handler, RTask.handler,
         RTask.oldAPump]).acts :=
  ⟨(claim_C1 [] [⟨none, none, [some "AA"], false⟩] [] []
      [RTask.handler, RTask.handler, RTask.handler, RTask.newRecv,
       RTask.newRecv, RTask.handler, RTask.handler, RTask.handler]).2.1
      (by decide),
   (claim_C1 [] [⟨none, none, [some "AA"], false⟩] [] []
      [RTask.handler, RTask.handler, RTask.handler, RTask.newRecv,
       RTask.newRecv, RTask.handler, RTask.handler, RTask.handler,
       RTask.oldAPump]).2.2 RAct.oldAudioDoneSend rfl⟩

/-- Counterexample to claim C1 as stated: a valid cooperative schedule of
the reset window in which the new receive loop enqueues an audio chunk
into the new session's audio queue (the queue the new pump pair reads)
*before* the old pump pair is cancelled.  The schedule: the handler runs
stop/close and spawns the new receive loop, blocks on the ready event; the
new receive loop starts (setting ready) and then processes one buffered
upstream event; only then is the handler scheduled again and cancels the
old pumps. -/
theorem claim_C1_cex :
    (runReset (initReset [] [⟨none, none, [some "AA"], false⟩] [] [])
        [RTask.handler, RTask.handler, RTask.handler, RTask.newRecv,
         RTask.newRecv, RTask.handler, RTask.handler, RTask.handler]).acts =
      [RAct.oldStopFlag, RAct.oldClose, RAct.spawnNewRecv, RAct.newRecvStart,
       RAct.newEnqueue, RAct.cancelOldPumps, RAct.spawnNewPumps,
       RAct.sendResetDone] ∧
    List.Sublist [RAct.newEnqueue, RAct.cancelOldPumps]
      (runReset (initReset [] [⟨none, none, [some "AA"], false⟩] [] [])
        [RTask.handler, RTask.handler, RTask.handler, RTask.newRecv,
         RTask.newRecv, RTask.handler, RTask.handler, RTask.handler]).acts ∧
    (runReset (initReset [] [⟨none, none, [some "AA"], false⟩] [] [])
        [RTask.handler, RTask.handler, RTask.handler, RTask.newRecv,
         RTask.newRecv]).newAQ = [some "AA"] := by
  decide

/-- Claim C2, corrected.  While the pump is running, each dequeued
sentinel produces exactly one `audio.done`, preceded by exactly its own
turn's `response.audio.delta` events in order and never interleaved with
a later turn's (second conjunct, for any sequence of complete turns); and
a sentinel is enqueued exactly when an upstream event carries
`turn_complete` (third conjunct).  However, when the pump exits because
the session stopped mid-poll, `_handle_audio` sends one additional
trailing `audio.done` with no corresponding sentinel (first conjunct:
`audio.done` count exceeds the dequeued-sentinel count by one exactly
when the run ended on the flag-exit path). -/
theorem claim_C2 :
    (∀ (q : List (Option String)) (b : Nat),
      doneCount (handle_audio q b).events =
        sentinelCount (handle_audio q b).consumed +
          (if (handle_audio q b).endedInside then 1 else 0)) ∧
    (∀ (turns : List (List String)),
      handle_audio (encodeTurns turns) (encodeTurns turns).length =
        ⟨turnEvents turns, encodeTurns turns, false⟩) ∧
    (∀ c : ServerContent,
      sentinelCount (audioPuts c) = if c.turn_complete then 1 else 0) := by
  refine ⟨fun q b => handle_audio_doneCount q b, fun t => handle_audio_turns t, ?_⟩
  intro c
  unfold audioPuts
  rw [sentinelCount_append, sentinelCount_audioParts]
  cases ht : c.turn_complete <;>
    simp [sentinelCount, List.countP_cons]

/-- Counterexample to claim C2 as stated: a session that is stopped while
the audio pump is polling an empty queue emits one `audio.done` although
zero turn-complete sentinels were dequeued. -/
theorem claim_C2_cex :
    doneCount (handle_audio ([] : List (Option String)) 1).events = 1 ∧
    sentinelCount (handle_audio ([] : List (Option String)) 1).consumed = 0 ∧
    doneCount (handle_audio ([] : List (Option String)) 1).events ≠
      sentinelCount (handle_audio ([] : List (Option String)) 1).consumed := by
  decide

/-- Claim C3, corrected.  If the upstream handshake takes longer than 30
seconds, `connect()` fails with the timeout error and at that moment the
session holds no live upstream connection handle — but the background
`_run_session` task is *not* cancelled: it remains running and
`_is_running` remains true. -/
theorem claim_C3 : ∀ (h : Nat), 30 < h →
    connect initGemini h =
      (Except.error AsyncErr.timeoutErr,
       { isRunning := true, task := some TaskStatus.running,
         session := none, sessionReady := false }) := by
  intro h hh
  unfold connect initGemini
  rw [if_neg (by omega)]

/-- Witness for C3's amended theorem at a 31-second handshake. -/
theorem claim_C3_witness :
    connect initGemini 31 =
      (Except.error AsyncErr.timeoutErr,
       { isRunning := true, task := some TaskStatus.running,
         session := none, sessionReady := false }) :=
  claim_C3 31 (by decide)

/-- Counterexample to claim C3 as stated: after a timed-out `connect()`
the background receive-loop task for that attempt is still running (the
claim asserts no such task remains). -/
theorem claim_C3_cex :
    (connect initGemini 31).1 = Except.error AsyncErr.timeoutErr ∧
    (connect initGemini 31).2.task = some TaskStatus.running ∧
    (connect initGemini 31).2.isRunning = true :=
  ⟨rfl, rfl, rfl⟩

/-- Claim C4, confirmed.  In every endpoint run, each started session is
followed by exactly one readiness event before any later session starts,
and sessions start in creation order: the projection of the action trace
to session starts and readiness events is an alternating start/readiness
pairing beginning with session 0 — `session.ready` for the initial
session, the `session.reset.done` acknowledgement (the
`session.ready`-equivalent readiness) for each session created by a
reset.  A session whose connect fails contributes no start and no
readiness event. -/
theorem claim_C4 : ∀ (hasKey : Bool) (connectOk : Nat → Bool)
    (msgs : List CMsg),
    ReadyPaired 0
      ((endpointRun hasKey connectOk msgs).filter isStartOrReadiness) := by
  intro hasKey connectOk msgs
  unfold endpointRun
  by_cases hk : hasKey
  · rw [if_pos hk]
    by_cases hc : connectOk 0
    · rw [if_pos hc]
      simp only [List.filter_cons, isStartOrReadiness]
      simp only [if_true, Bool.false_eq_true, if_false]
      exact ReadyPaired.pair 0 _ (endpointLoop_readyPaired connectOk msgs 0)
    · rw [if_neg hc]
      simp only [List.filter, isStartOrReadiness]
      exact ReadyPaired.nil _
  · rw [if_neg hk]
    simp only [List.filter, isStartOrReadiness]
    exact ReadyPaired.nil _

/-- Claim C5, confirmed.  A message whose decode fails
(`json.JSONDecodeError`) and a message with an unrecognized `type` are
both skipped: the loop's behaviour on the remaining messages is unchanged,
so in particular no teardown and no connection close results from them. -/
theorem claim_C5 : ∀ (connectOk : Nat → Bool) (k : Nat) (msgs : List CMsg)
    (ty : String),
    endpointLoop connectOk k (CMsg.malformed :: msgs) =
      endpointLoop connectOk k msgs ∧
    endpointLoop connectOk k (CMsg.other ty :: msgs) =
      endpointLoop connectOk k msgs := by
  intro connectOk k msgs ty
  exact ⟨rfl, rfl⟩

/-- Claim C6, confirmed.  After `stop()` has completed, every audio block
passed to `process_audio` is silently dropped: the `send_audio` guard
`if self.session and self._is_running` is false (close cleared
`_is_running`), so nothing is forwarded upstream and nothing on that path
can raise. -/
theorem claim_C6 : ∀ (v : VCState) (blocks : List String),
    blocks.map (fun b => vcProcessAudio (vcStop v) b) =
      blocks.map (fun _ => SendAudioResult.dropped) := by
  intro v blocks
  have h : ∀ b, vcProcessAudio (vcStop v) b = SendAudioResult.dropped := by
    intro b
    unfold vcProcessAudio vcStop send_audio
    rw [close_not_running]
    simp
  simp [h]

/-- Claim C7, confirmed.  A transcription fragment that is empty or
whitespace-only contributes nothing to the transcript queue: handling an
event whose input (resp. output) transcription is such a fragment enqueues
exactly what the same event without that fragment enqueues.  Since
`_handle_transcripts` only sends dequeued items, no transcript client
event is ever emitted for the fragment. -/
theorem claim_C7 : ∀ (c : ServerContent) (t : String), pyStrip t = "" →
    transcriptPuts { c with input_transcription := some t } =
      transcriptPuts { c with input_transcription := none } ∧
    transcriptPuts { c with output_transcription := some t } =
      transcriptPuts { c with output_transcription := none } := by
  intro c t h
  constructor
  · simp [transcriptPuts, h]
  · simp [transcriptPuts, h]

/-- Witness for C7 at the whitespace-only fragment `"  "`. -/
theorem claim_C7_witness :
    transcriptPuts { input_transcription := some "  ",
                     output_transcription := none, modelTurnParts := [],
                     turn_complete := false } =
      transcriptPuts { input_transcription := none,
                       output_transcription := none, modelTurnParts := [],
                       turn_complete := false } :=
  (claim_C7 ⟨none, none, [], false⟩ "  " (by decide)).1

/-- Claim C8, confirmed.  `close()` lets no exception escape on any state
(in particular on the constructor state, before `connect()` ever ran);
it is idempotent, and so is `VoiceChatSession.stop` (which sends no client
events at all — its body only clears the flag and closes the upstream
session). -/
theorem claim_C8 : ∀ (g : GeminiState) (v : VCState),
    (close g).2 = none ∧
    close (close g).1 = ((close g).1, none) ∧
    vcStop (vcStop v) = vcStop v ∧
    (close initGemini).2 = none := by
  intro g v
  refine ⟨close_ok g, close_close g, ?_, close_ok initGemini⟩
  unfold vcStop
  have h := close_close v.gemini
  simp [congrArg Prod.fst h]

/-- Claim C9, confirmed.  Every enqueued (hence every delivered)
transcript item has non-empty text with no leading or trailing
whitespace, and that text is exactly one of the event's transcription
fragments with leading and trailing whitespace stripped. -/
theorem claim_C9 : ∀ (c : ServerContent) (x : TranscriptItem),
    x ∈ transcriptPuts c →
      x.text ≠ "" ∧
      (∀ a, x.text.data.head? = some a → pyIsSpace a = false) ∧
      (∀ a, x.text.data.getLast? = some a → pyIsSpace a = false) ∧
      (∃ t, (c.input_transcription = some t ∨
             c.output_transcription = some t) ∧ x.text = pyStrip t) := by
  intro c x hx
  unfold transcriptPuts at hx
  rcases List.mem_append.mp hx with hm | hm
  · rcases hin : c.input_transcription with _ | t
    · rw [hin] at hm; simp at hm
    · rw [hin] at hm
      simp at hm
      obtain ⟨⟨ht1, ht2⟩, hx'⟩ := hm
      subst hx'
      refine ⟨ht2, ?_, ?_, t, Or.inl rfl, rfl⟩
      · intro a ha; exact stripChars_head_not_space t.data a ha
      · intro a ha; exact stripChars_getLast_not_space t.data a ha
  · rcases hout : c.output_transcription with _ | t
    · rw [hout] at hm; simp at hm
    · rw [hout] at hm
      simp at hm
      obtain ⟨⟨ht1, ht2⟩, hx'⟩ := hm
      subst hx'
      refine ⟨ht2, ?_, ?_, t, Or.inr rfl, rfl⟩
      · intro a ha; exact stripChars_head_not_space t.data a ha
      · intro a ha; exact stripChars_getLast_not_space t.data a ha

/-- Witness for C9: the fragment `" hi "` is enqueued as `"hi"`. -/
theorem claim_C9_witness :
    (⟨Speaker.user, "hi"⟩ : TranscriptItem).text ≠ "" ∧
    (∀ a, (⟨Speaker.user, "hi"⟩ : TranscriptItem).text.data.head? = some a →
      pyIsSpace a = false) ∧
    (∀ a, (⟨Speaker.user, "hi"⟩ : TranscriptItem).text.data.getLast? = some a →
      pyIsSpace a = false) ∧
    (∃ t, ((⟨some " hi ", none, [], false⟩ : ServerContent).input_transcription
            = some t ∨
           (⟨some " hi ", none, [], false⟩ : ServerContent).output_transcription
            = some t) ∧
      (⟨Speaker.user, "hi"⟩ : TranscriptItem).text = pyStrip t) :=
  claim_C9 ⟨some " hi ", none, [], false⟩ ⟨Speaker.user, "hi"⟩ (by decide)

/-- Claim C10, confirmed.  An `input_audio_buffer.append` whose `delta`
is absent (`message.get("delta", "")` yields `""`) or the empty string is
dropped before reaching `process_audio`: the loop behaves exactly as if
the message were not there. -/
theorem claim_C10 : ∀ (connectOk : Nat → Bool) (k : Nat) (msgs : List CMsg),
    endpointLoop connectOk k (CMsg.append none :: msgs) =
      endpointLoop connectOk k msgs ∧
    endpointLoop connectOk k (CMsg.append (some "") :: msgs) =
      endpointLoop connectOk k msgs := by
  intro connectOk k msgs
  constructor
  · simp [endpointLoop]
  · simp [endpointLoop]

end VoiceBackend
